import Mathlib

/-!
Verification development for the untrace-dev/untrace-sdk Python SDK
(src/sdks/python/src/untrace).

The development shallowly embeds the parts of the SDK that the checked
properties are about:

* the attribute/value model and the OTLP value conversion of
  UntraceExporter (exporter.py),
* the span-to-payload grouping of UntraceExporter._convert_spans_to_payload
  (exporter.py),
* the export result logic of UntraceExporter.export (exporter.py),
* sanitize_attributes (attributes.py),
* the span lifecycle of BaseProviderInstrumentation._create_llm_span_sync
  (instrumentation/base.py) and UntraceTracer.with_span (tracer.py),
* the instrument/uninstrument state machine of OpenAIInstrumentation
  (instrumentation/openai.py) together with
  BaseProviderInstrumentation._patch_method (instrumentation/base.py),
* the init singleton logic (untrace.py).

Python dictionaries are embedded as insertion-ordered association lists;
machine integers are unbounded (Python ints are unbounded); fallible code
returns explicit outcome values.
-/

namespace Untrace

/-! ### Python value model

A Python attribute value as the exporter and sanitizer see it.  Python
booleans are a subtype of int; the embedding keeps the constructors
disjoint, and the predicate isinstance_int below reproduces the
isinstance(v, int) behaviour (true on bools as well).  Floats never take
part in any arithmetic here, so they are carried as rationals.  An
arbitrary object (the fallback branch of the conversions) is carried as
its type name together with its str() rendering. -/

inductive PyValue where
  | none
  | str (s : String)
  | bool (b : Bool)
  | int (n : Int)
  | float (q : Rat)
  | list (xs : List PyValue)
  | dict (kvs : List (String × PyValue))
  | obj (ty : String) (s : String)
deriving Repr

/-- Truth of the Python test value is None. -/
def PyValue.isNone : PyValue → Bool
  | .none => true
  | _ => false

/-- Python isinstance(v, bool). -/
def isinstance_bool : PyValue → Bool
  | .bool _ => true
  | _ => false

/-- Python isinstance(v, int): true on ints and also on bools, because bool
is a subclass of int in Python. -/
def isinstance_int : PyValue → Bool
  | .int _ => true
  | .bool _ => true
  | _ => false

mutual

/-- Python str(value), as used by the fallback branches of the SDK.  Only
the scalar renderings matter for the checked claims; composites follow the
shape of the Python repr. -/
def pyStr : PyValue → String
  | .none => "None"
  | .str s => s
  | .bool b => if b then "True" else "False"
  | .int n => toString n
  | .float q => toString q
  | .list xs => "[" ++ pyStrList xs ++ "]"
  | .dict kvs => "\x7b" ++ pyStrKvs kvs ++ "\x7d"
  | .obj _ s => s

def pyStrList : List PyValue → String
  | [] => ""
  | [v] => pyStr v
  | v :: vs => pyStr v ++ ", " ++ pyStrList vs

def pyStrKvs : List (String × PyValue) → String
  | [] => ""
  | [(k, v)] => k ++ ": " ++ pyStr v
  | (k, v) :: rest => k ++ ": " ++ pyStr v ++ ", " ++ pyStrKvs rest

end

/-! ### OTLP values (exporter.py, UntraceExporter._convert_value) -/

/-- An OTLP-JSON attribute value as produced by the exporter: a one-key
object whose tag is the constructor name. -/
inductive OtlpValue where
  | stringValue (s : String)
  | boolValue (b : Bool)
  | intValue (n : Int)
  | doubleValue (q : Rat)
  | arrayValue (vs : List OtlpValue)
  | kvlistValue (kvs : List (String × OtlpValue))
deriving Repr

mutual

/-- Embedding of UntraceExporter._convert_value (exporter.py lines 263-298).
The Python source dispatches with an if/elif chain in this order:
str, bool, int, float, list/tuple, dict, fallback str(value).  The bool
test is performed before the int test, so a bool is converted to boolValue
even though isinstance(True, int) holds.  The list branch converts every
element with no None filtering; the dict branch skips entries whose value
is None; the fallback converts None itself to the string "None". -/
def convert_value : PyValue → OtlpValue
  | .str s => .stringValue s
  | .bool b => .boolValue b
  | .int n => .intValue n
  | .float q => .doubleValue q
  | .list xs => .arrayValue (convert_value_list xs)
  | .dict kvs => .kvlistValue (convert_value_kvs kvs)
  | .none => .stringValue (pyStr .none)
  | .obj ty s => .stringValue (pyStr (.obj ty s))

/-- Elements of the arrayValue branch: every element converted, no
filtering of None elements (source line 283). -/
def convert_value_list : List PyValue → List OtlpValue
  | [] => []
  | v :: vs => convert_value v :: convert_value_list vs

/-- Entries of the kvlistValue branch: entries with a None value are
skipped (source lines 289-293, the condition if v is not None). -/
def convert_value_kvs : List (String × PyValue) → List (String × OtlpValue)
  | [] => []
  | (k, v) :: rest =>
      if v.isNone then convert_value_kvs rest
      else (k, convert_value v) :: convert_value_kvs rest

end

/-- Embedding of UntraceExporter._convert_attributes (exporter.py lines
237-261): iterate the attribute dict in order, skip entries whose value is
None, and convert the rest. -/
def convert_attributes : List (String × PyValue) → List (String × OtlpValue)
  | [] => []
  | (k, v) :: rest =>
      if v.isNone then convert_attributes rest
      else (k, convert_value v) :: convert_attributes rest

/-! ### sanitize_attributes (attributes.py lines 176-196) -/

/-- Value transformation inside sanitize_attributes: scalars
(str/int/float/bool) are kept as they are, list/dict and any other object
are converted with str().  The None case is filtered out before this
function is reached. -/
def sanitize_value : PyValue → PyValue
  | .str s => .str s
  | .int n => .int n
  | .float q => .float q
  | .bool b => .bool b
  | v => .str (pyStr v)

/-- Embedding of sanitize_attributes (attributes.py): iterate the dict in
insertion order, drop entries whose value is None, keep scalars untouched
and stringify composite or other values. -/
def sanitize_attributes : List (String × PyValue) → List (String × PyValue)
  | [] => []
  | (k, v) :: rest =>
      if v.isNone then sanitize_attributes rest
      else (k, sanitize_value v) :: sanitize_attributes rest

/-! ### Spans and the OTLP payload (exporter.py, _convert_spans_to_payload
and _convert_span) -/

/-- InstrumentationScope of a span: name and optional version. -/
structure Scope where
  name : String
  version : Option String
deriving Repr, DecidableEq

/-- Span status as stored on a ReadableSpan: numeric status code plus
optional description. -/
structure SpanStatus where
  code : Nat
  message : Option String
deriving Repr, DecidableEq

/-- Span event: timestamp (nanoseconds), name, attributes. -/
structure SpanEvent where
  timestamp : Nat
  name : String
  attributes : List (String × PyValue)

/-- Span link: linked trace and span ids plus attributes. -/
structure SpanLink where
  traceId : Nat
  spanId : Nat
  attributes : List (String × PyValue)

/-- The parts of an OpenTelemetry ReadableSpan that the exporter reads:
identifiers, name, kind, times, attributes, status, events, links, the
Resource attribute map, and the InstrumentationScope. -/
structure ReadableSpan where
  traceId : Nat
  spanId : Nat
  parentSpanId : Option Nat
  name : String
  kind : Nat
  startTime : Nat
  endTime : Nat
  attributes : List (String × PyValue)
  status : SpanStatus
  events : List SpanEvent
  links : List SpanLink
  resourceAttributes : List (String × PyValue)
  scope : Scope

/-- Fixed-width lowercase hex rendering, as Python format(n, "032x") or
format(n, "016x"). -/
def hexPad (width n : Nat) : String :=
  let s : List Char := Nat.toDigits 16 n
  ⟨List.replicate (width - s.length) '0' ++ s⟩

/-- Canonical ordering of an attribute map used for the resource
fingerprint: sort the entries by key.  This models the key ordering that
json.dumps(resource_attrs, sort_keys=True) applies (exporter.py line
153). -/
def sortAttrs (attrs : List (String × PyValue)) : List (String × PyValue) :=
  List.insertionSort (fun a b => a.1 ≤ b.1) attrs

mutual

/-- JSON-like rendering of a value inside the resource fingerprint,
modelling json.dumps.  Injectivity of the rendering is never used: the
fingerprint only serves as a grouping key, exactly as in the source. -/
def encodeValue : PyValue → String
  | .none => "null"
  | .str s => "\"" ++ s ++ "\""
  | .bool b => if b then "true" else "false"
  | .int n => toString n
  | .float q => toString q
  | .list xs => "[" ++ encodeList xs ++ "]"
  | .dict kvs => "\x7b" ++ encodeKvs kvs ++ "\x7d"
  | .obj _ s => "\"" ++ s ++ "\""

def encodeList : List PyValue → String
  | [] => ""
  | [v] => encodeValue v
  | v :: vs => encodeValue v ++ ", " ++ encodeList vs

def encodeKvs : List (String × PyValue) → String
  | [] => ""
  | [(k, v)] => "\"" ++ k ++ "\": " ++ encodeValue v
  | (k, v) :: rest => "\"" ++ k ++ "\": " ++ encodeValue v ++ ", " ++ encodeKvs rest

end

/-- Resource fingerprint of a span (exporter.py line 153):
resource_key = json.dumps(dict(span.resource.attributes), sort_keys=True).
Embedded as the JSON-like rendering of the key-sorted attribute list. -/
def resource_key (s : ReadableSpan) : String :=
  "\x7b" ++ encodeKvs (sortAttrs s.resourceAttributes) ++ "\x7d"

/-- Scope grouping key of a span (exporter.py line 154):
scope_key = span.instrumentation_scope.name ++ ":" ++ (version or ""). -/
def scope_key (s : ReadableSpan) : String :=
  s.scope.name ++ ":" ++ s.scope.version.getD ""

/-- Inner grouping step: append span s to the bucket of scope key sk,
creating the bucket at the end when absent.  This reproduces insertion
into the insertion-ordered Python dict resource_map[resource_key]
(exporter.py lines 159-162). -/
def addToScopeMap (m : List (String × List ReadableSpan)) (sk : String)
    (s : ReadableSpan) : List (String × List ReadableSpan) :=
  match m with
  | [] => [(sk, [s])]
  | (k, ss) :: rest =>
      if k = sk then (k, ss ++ [s]) :: rest
      else (k, ss) :: addToScopeMap rest sk s

/-- Outer grouping step: route span s to the scope map of resource key rk,
creating it at the end when absent (exporter.py lines 156-162). -/
def addToResourceMap (m : List (String × List (String × List ReadableSpan)))
    (rk sk : String) (s : ReadableSpan) :
    List (String × List (String × List ReadableSpan)) :=
  match m with
  | [] => [(rk, [(sk, [s])])]
  | (k, sm) :: rest =>
      if k = rk then (k, addToScopeMap sm sk s) :: rest
      else (k, sm) :: addToResourceMap rest rk sk s

/-- The grouping loop of _convert_spans_to_payload (exporter.py lines
150-162): fold the span list in order into the two-level insertion-ordered
map. -/
def buildResourceMap (spans : List ReadableSpan) :
    List (String × List (String × List ReadableSpan)) :=
  spans.foldl (fun m s => addToResourceMap m (resource_key s) (scope_key s) s) []

/-- OTLP wire shape of an event. -/
structure OtlpEvent where
  timeUnixNano : String
  name : String
  attributes : List (String × OtlpValue)
deriving Repr

/-- OTLP wire shape of a link. -/
structure OtlpLink where
  traceId : String
  spanId : String
  attributes : List (String × OtlpValue)
deriving Repr

/-- OTLP wire shape of one span, as built by _convert_span (exporter.py
lines 197-235). -/
structure OtlpSpan where
  traceId : String
  spanId : String
  parentSpanId : Option String
  name : String
  kind : Nat
  startTimeUnixNano : String
  endTimeUnixNano : String
  attributes : List (String × OtlpValue)
  status : SpanStatus
  events : List OtlpEvent
  links : List OtlpLink
deriving Repr

/-- Embedding of _convert_span (exporter.py lines 197-235).  _time_to_nanos
is the identity (lines 300-309), so the time fields are decimal strings of
the stored nanosecond timestamps. -/
def convert_span (s : ReadableSpan) : OtlpSpan :=
  { traceId := hexPad 32 s.traceId
    spanId := hexPad 16 s.spanId
    parentSpanId := s.parentSpanId.map (hexPad 16)
    name := s.name
    kind := s.kind
    startTimeUnixNano := toString s.startTime
    endTimeUnixNano := toString s.endTime
    attributes := convert_attributes s.attributes
    status := s.status
    events := s.events.map (fun e =>
      { timeUnixNano := toString e.timestamp
        name := e.name
        attributes := convert_attributes e.attributes })
    links := s.links.map (fun l =>
      { traceId := hexPad 32 l.traceId
        spanId := hexPad 16 l.spanId
        attributes := convert_attributes l.attributes }) }

/-- One scopeSpans entry of the payload. -/
structure ScopeSpansEntry where
  scope : Scope
  spans : List OtlpSpan
deriving Repr

/-- One resourceSpans entry of the payload. -/
structure ResourceSpansEntry where
  resource : List (String × OtlpValue)
  scopeSpans : List ScopeSpansEntry
deriving Repr

/-- The whole OTLP payload object. -/
structure OtlpPayload where
  resourceSpans : List ResourceSpansEntry
deriving Repr

/-- Splitting of a scope key back into name and version (exporter.py line
178, scope_key.split(":", 1)): the name is the text before the first
colon, the version is the rest, mapped to None when empty (line 182,
version if scope_version else None). -/
def splitScopeKey (sk : String) : String × Option String :=
  match sk.splitOn ":" with
  | [] => (sk, none)
  | n :: rest =>
      let v := String.intercalate ":" rest
      (n, if v = "" then none else some v)

/-- Embedding of the payload-building part of _convert_spans_to_payload
(exporter.py lines 164-195): one resourceSpans entry per resource group in
insertion order, whose resource attributes come from the first span of the
first scope group, and one scopeSpans entry per scope group.  The source
extracts the first span with next(iter(...)), which can only be reached on
nonempty groups; the embedding returns empty attributes in the impossible
empty case. -/
def buildPayload (spans : List ReadableSpan) : OtlpPayload :=
  let rmap := buildResourceMap spans
  { resourceSpans := rmap.map (fun rentry =>
      let firstAttrs :=
        match rentry.2 with
        | (_, s :: _) :: _ => s.resourceAttributes
        | _ => []
      { resource := convert_attributes firstAttrs
        scopeSpans := rentry.2.map (fun sentry =>
          let nv := splitScopeKey sentry.1
          { scope := { name := nv.1, version := nv.2 }
            spans := sentry.2.map convert_span }) }) }

/-- Total number of spans contained in a two-level resource map. -/
def resourceMapSpanCount (m : List (String × List (String × List ReadableSpan))) : Nat :=
  (m.map (fun rentry => (rentry.2.map (fun sentry => sentry.2.length)).sum)).sum

/-- Total number of spans contained in a payload. -/
def payloadSpanCount (p : OtlpPayload) : Nat :=
  (p.resourceSpans.map (fun rentry =>
    (rentry.scopeSpans.map (fun sentry => sentry.spans.length)).sum)).sum

/-! ### Export result (exporter.py, UntraceExporter.export and
_export_spans) -/

/-- Result type of an export call, after
opentelemetry.sdk.trace.export.SpanExportResult. -/
inductive SpanExportResult where
  | success
  | failure
deriving Repr, DecidableEq

/-- A Python exception value: type name and message.  str(e) of a standard
exception built as Type(message) is the message. -/
structure PyExn where
  ty : String
  msg : String
deriving Repr, DecidableEq

/-- Everything that can come out of the HTTP POST of _export_spans: an
HTTP response with some status code, or an exception raised anywhere in
the attempt (serialization, connection, transport, timeout).  The
asyncio event loop machinery of export is covered by the same exception
case, since the outer try/except of export turns any such exception into
FAILURE as well. -/
inductive HttpOutcome where
  | response (status : Nat)
  | raisedError (e : PyExn)
deriving Repr, DecidableEq

/-- httpx Response.is_success: status in the 2xx range. -/
def http_is_success (status : Nat) : Bool :=
  200 ≤ status && status < 300

/-- Embedding of _export_spans (exporter.py lines 63-119): the whole body
runs under try/except, a non success status is logged and mapped to
FAILURE, a success status to SUCCESS, and any exception is logged and
mapped to FAILURE. -/
def export_spans_result (o : HttpOutcome) : SpanExportResult :=
  match o with
  | .response st => if http_is_success st then .success else .failure
  | .raisedError _ => .failure

/-- Embedding of UntraceExporter.export (exporter.py lines 38-61): an
empty span list short-circuits to SUCCESS without any HTTP interaction;
otherwise the async export runs and its result is returned, with any
exception from the event-loop bridge downgraded to FAILURE (already covered
by the raisedError case of the outcome).  The embedding is a total
function: no path raises. -/
def export_batch (spans : List ReadableSpan) (o : HttpOutcome) : SpanExportResult :=
  if spans.isEmpty then .success
  else export_spans_result o

/-! ### Span lifecycle of the interception engine
(instrumentation/base.py, _create_llm_span_sync; tracer.py, with_span)

The wrapped call is embedded by what it observably does: the span and
metric operations it performs while running, and its outcome (a returned
value or a raised exception).  The engine then appends its own span
operations around the call. -/

/-- OpenTelemetry status codes used by the SDK. -/
inductive UStatusCode where
  | unset
  | ok
  | error
deriving Repr, DecidableEq

/-- One operation performed on a span handle. -/
inductive SpanOp where
  | setAttribute (key : String) (value : PyValue)
  | addEvent (name : String)
  | recordException (e : PyExn)
  | setStatus (code : UStatusCode) (message : Option String)
  | endSpan
deriving Repr

/-- One operation performed on the metrics recorder. -/
inductive MetricOp where
  | tokenUsage (model provider : String) (promptTokens completionTokens totalTokens : Nat)
  | errorMetric (errType errMsg : String) (tags : List (String × String))
deriving Repr, DecidableEq

/-- Whether a span operation is the end() call. -/
def SpanOp.isEnd : SpanOp → Bool
  | .endSpan => true
  | _ => false

/-- Outcome of running the wrapped original callable. -/
inductive CallOutcome (α : Type) where
  | ok (v : α)
  | exn (e : PyExn)
deriving Repr

/-- Observable behaviour of a traced call: span operations and metric
operations it performs, and its outcome. -/
structure TracedCall (α : Type) where
  spanOps : List SpanOp
  metricOps : List MetricOp
  outcome : CallOutcome α

/-- Result of one pass through a span engine: all span operations in
order, all metric operations in order, and the outcome delivered to the
caller (a returned value, or the re-raised exception). -/
structure EngineRun (α : Type) where
  spanOps : List SpanOp
  metricOps : List MetricOp
  outcome : CallOutcome α

/-- Embedding of BaseProviderInstrumentation._create_llm_span_sync
(instrumentation/base.py lines 61-82).  The body is
try: result = traced_call(span); span.set_status(OK); return result
except Exception as e: span.record_exception(e);
span.set_status(ERROR, str(e)); raise
finally: span.end().
On success the engine appends set_status(OK) then end(); on an exception
it appends record_exception(e), set_status(ERROR, str(e)) and end(), and
re-raises the same exception object.  No metric operation is performed by
the engine on either branch: _handle_error_metrics (lines 201-208) has no
caller anywhere in the SDK. -/
def create_llm_span_sync {α : Type} (traced : TracedCall α) : EngineRun α :=
  match traced.outcome with
  | .ok v =>
      { spanOps := traced.spanOps ++ [.setStatus .ok none, .endSpan]
        metricOps := traced.metricOps
        outcome := .ok v }
  | .exn e =>
      { spanOps := traced.spanOps ++
          [.recordException e, .setStatus .error (some e.msg), .endSpan]
        metricOps := traced.metricOps
        outcome := .exn e }

/-- Embedding of UntraceTracer.with_span (tracer.py lines 142-170), the
engine of the asynchronous wrapping path (reached through with_llm_span
and _create_llm_span_async).  The body has the same
try/except/finally shape; the status description is
str(error) if error else "Unknown error", and an exception instance is
always truthy in Python, so the description is str(error). -/
def with_span {α : Type} (traced : TracedCall α) : EngineRun α :=
  match traced.outcome with
  | .ok v =>
      { spanOps := traced.spanOps ++ [.setStatus .ok none, .endSpan]
        metricOps := traced.metricOps
        outcome := .ok v }
  | .exn e =>
      { spanOps := traced.spanOps ++
          [.recordException e, .setStatus .error (some e.msg), .endSpan]
        metricOps := traced.metricOps
        outcome := .exn e }

/-- Embedding of BaseProviderInstrumentation._handle_error_metrics
(instrumentation/base.py lines 201-208): the metric operation it would
record.  The method is defined in the source but is never invoked on any
path. -/
def handle_error_metrics (e : PyExn) (operation provider : String) : MetricOp :=
  .errorMetric e.ty e.msg [("operation", operation), ("provider", provider)]

/-! ### Adapter instrument/uninstrument state machine
(instrumentation/openai.py; instrumentation/base.py, _patch_method)

Callables are embedded as values: an original callable of the third-party
library, or a wrapper installed around one.  The world holds the mutable
class constructor table of the provider library and the method tables of
constructed client instances; the adapter state holds the _instrumented
flag and the two original-callable records of the base class. -/

/-- A Python callable reference: a named original, or an instrumentation
wrapper around another callable. -/
inductive Callable where
  | original (name : String)
  | wrapper (inner : Callable)
deriving Repr, DecidableEq

/-- The mutable world outside the adapter: whether the provider library
can be imported, its class constructor table (class name to the current
value of cls.init), and the constructed client instances (instance id to
its current method table). -/
structure AdapterWorld where
  libAvailable : Bool
  constructors : List (String × Callable)
  instances : List (Nat × List (String × Callable))
deriving Repr, DecidableEq

/-- The adapter instance state: the _instrumented flag, the
_original_constructors dict, and the _original_methods dict of the base
class keyed by the concatenation of id(obj), ".", method name. -/
structure AdapterState where
  instrumented : Bool
  originalConstructors : List (String × Callable)
  originalMethods : List (String × Callable)
deriving Repr, DecidableEq

/-- Embedding of OpenAIInstrumentation.instrument (instrumentation/openai.py
lines 20-40): a no-op when already instrumented; a logged no-op when the
provider library cannot be imported; otherwise each class constructor is
recorded in _original_constructors and replaced by a wrapper, and the
adapter is marked instrumented. -/
def adapter_instrument (w : AdapterWorld) (st : AdapterState) :
    AdapterWorld × AdapterState :=
  if st.instrumented then (w, st)
  else if !w.libAvailable then (w, st)
  else
    ({ w with constructors := w.constructors.map (fun c => (c.1, Callable.wrapper c.2)) },
     { st with
        instrumented := true
        originalConstructors := w.constructors })

/-- Embedding of constructing one provider client while the adapter may be
active (the constructor wrapper of instrumentation/openai.py lines 42-68
together with _instrument_client_instance, lines 70-94, and _patch_method
of instrumentation/base.py lines 45-59).  The new instance starts with the
method table the library gives it; when the installed constructor is the
instrumentation wrapper, every target method is recorded in
_original_methods under the key id.methodName and replaced by a wrapper. -/
def construct_client (w : AdapterWorld) (st : AdapterState)
    (cls : String) (newId : Nat) (methods : List (String × Callable)) :
    AdapterWorld × AdapterState :=
  match w.constructors.lookup cls with
  | some (Callable.wrapper _) =>
      ({ w with instances :=
          w.instances ++ [(newId, methods.map (fun m => (m.1, Callable.wrapper m.2)))] },
       { st with originalMethods :=
          st.originalMethods ++ methods.map (fun m => (toString newId ++ "." ++ m.1, m.2)) })
  | _ =>
      ({ w with instances := w.instances ++ [(newId, methods)] }, st)

/-- Embedding of OpenAIInstrumentation.uninstrument
(instrumentation/openai.py lines 247-260): a no-op when not instrumented;
otherwise the class constructors recorded in _original_constructors are
restored and the adapter is marked uninstrumented.  The method tables of
constructed instances are left untouched: nothing in the source reads
_original_methods back. -/
def adapter_uninstrument (w : AdapterWorld) (st : AdapterState) :
    AdapterWorld × AdapterState :=
  if !st.instrumented then (w, st)
  else
    ({ w with constructors := st.originalConstructors },
     { st with instrumented := false })

/-! ### SDK init singleton (untrace.py, init, lines 203-225) -/

/-- The module-level _global_state dict of untrace.py: the is_initialized
flag and the stored instance (instances are identified by a number). -/
structure GlobalState where
  isInitialized : Bool
  inst : Option Nat
deriving Repr, DecidableEq

/-- What a call to init delivers to the caller: a returned instance, or a
raised RuntimeError. -/
inductive InitOutcome where
  | returned (i : Nat)
  | raisedRuntimeError (msg : String)
deriving Repr, DecidableEq

/-- Embedding of init (untrace.py lines 203-225).  When the SDK is
initialized and an instance is stored, the existing instance is returned
(after an optional debug log).  When the flag is set but no instance is
stored, a RuntimeError is raised.  Otherwise the flag is set, a fresh
instance is constructed and stored, and it is returned.  The fresh
parameter stands for the identity of the instance the Untrace constructor
would create. -/
def sdk_init (s : GlobalState) (fresh : Nat) : InitOutcome × GlobalState :=
  match s.inst with
  | some i =>
      if s.isInitialized then (.returned i, s)
      else (.returned fresh, { isInitialized := true, inst := some fresh })
  | none =>
      if s.isInitialized then
        (.raisedRuntimeError "Untrace SDK is already initialized but instance is null.", s)
      else (.returned fresh, { isInitialized := true, inst := some fresh })

/-! ### Proof-layer definitions -/

/-- Invariant of one scope group map of the exporter grouping, relative to
the prefix of spans processed so far and the resource key rk of the group:
scope keys are distinct, a scope key is present exactly when some
processed span of this resource carries it, and every bucket is exactly
the in-order sublist of processed spans with this resource key and scope
key. -/
def scopeMapInv (pfx : List ReadableSpan) (rk : String)
    (sm : List (String × List ReadableSpan)) : Prop :=
  (sm.map Prod.fst).Nodup ∧
  (∀ sk, (sm.lookup sk).isSome = true
      ↔ sk ∈ (pfx.filter (fun t => resource_key t == rk)).map scope_key) ∧
  (∀ sk ss, sm.lookup sk = some ss
      → ss = pfx.filter (fun t => resource_key t == rk && scope_key t == sk))

/-- Invariant of the two-level resource map of the exporter grouping:
resource keys are distinct, a resource key is present exactly when some
processed span carries it, and every scope group map satisfies its own
invariant. -/
def resourceMapInv (pfx : List ReadableSpan)
    (m : List (String × List (String × List ReadableSpan))) : Prop :=
  (m.map Prod.fst).Nodup ∧
  (∀ rk, (m.lookup rk).isSome = true ↔ rk ∈ pfx.map resource_key) ∧
  (∀ rk sm, m.lookup rk = some sm → scopeMapInv pfx rk sm)

/-- Total number of spans contained in one scope group map. -/
def scopeMapSpanCount (sm : List (String × List ReadableSpan)) : Nat :=
  (sm.map (fun sentry => sentry.2.length)).sum

/-- A concrete closed span used by witness scenarios: given resource
attributes and a scope name. -/
def sampleSpan (attrs : List (String × PyValue)) (sname : String) : ReadableSpan :=
  { traceId := 1, spanId := 2, parentSpanId := none,
    name := "openai.chat.completions.create", kind := 3, startTime := 10, endTime := 20,
    attributes := [], status := ⟨1, none⟩, events := [], links := [],
    resourceAttributes := attrs, scope := ⟨sname, none⟩ }

/-- The OpenAI library world before instrumentation: both client classes
present with their original constructors and no client instances. -/
def openaiWorld : AdapterWorld :=
  { libAvailable := true,
    constructors := [("OpenAI", Callable.original "OpenAI.__init__"),
      ("AsyncOpenAI", Callable.original "AsyncOpenAI.__init__")],
    instances := [] }

/-- A freshly created adapter: not instrumented, no recorded originals. -/
def freshAdapter : AdapterState :=
  { instrumented := false, originalConstructors := [], originalMethods := [] }

/-- The concrete run deciding the uninstrument claim: instrument the
OpenAI adapter, construct one client (whose chat.completions.create gets
patched and recorded), then uninstrument. -/
def uninstrumentScenario : AdapterWorld × AdapterState :=
  let p1 := adapter_instrument openaiWorld freshAdapter
  let p2 := construct_client p1.1 p1.2 "OpenAI" 1
    [("chat.completions.create", Callable.original "completions.create")]
  adapter_uninstrument p2.1 p2.2

/-- Observable behaviour of a wrapped chat-completion call that raises
TimeoutError("slow") after emitting its request event, as in the spec
scenario: the request start event has been added, no metric recorded yet,
and the original callable raises. -/
def timeoutTraced : TracedCall Unit :=
  { spanOps := [SpanOp.addEvent "llm.request.start"], metricOps := [],
    outcome := CallOutcome.exn ⟨"TimeoutError", "slow"⟩ }

/-! ### Helper lemmas -/

theorem convert_attributes_drop_none (pre post : List (String × PyValue)) (k : String) :
    convert_attributes (pre ++ (k, PyValue.none) :: post) = convert_attributes (pre ++ post) := by
  induction pre with
  | nil => simp [convert_attributes, PyValue.isNone]
  | cons hd tl ih =>
      obtain ⟨k', v'⟩ := hd
      simp only [List.cons_append, convert_attributes, List.append_eq]
      rw [ih]

theorem convert_value_kvs_drop_none (pre post : List (String × PyValue)) (k : String) :
    convert_value_kvs (pre ++ (k, PyValue.none) :: post) = convert_value_kvs (pre ++ post) := by
  induction pre with
  | nil => simp [convert_value_kvs, PyValue.isNone]
  | cons hd tl ih =>
      obtain ⟨k', v'⟩ := hd
      simp only [List.cons_append, convert_value_kvs, List.append_eq]
      rw [ih]

theorem convert_value_list_append (l₁ l₂ : List PyValue) :
    convert_value_list (l₁ ++ l₂) = convert_value_list l₁ ++ convert_value_list l₂ := by
  induction l₁ with
  | nil => simp [convert_value_list]
  | cons hd tl ih => simp [convert_value_list, ih]

theorem sorted_strict_of_nodup_keys {l : List (String × PyValue)}
    (hs : List.Sorted (fun a b => a.1 ≤ b.1) l) (hn : (l.map Prod.fst).Nodup) :
    List.Sorted (fun a b : String × PyValue => a.1 < b.1) l := by
  have hne : List.Pairwise (fun a b : String × PyValue => a.1 ≠ b.1) l :=
    List.pairwise_map.mp hn
  exact List.Pairwise.imp₂ (fun a b hle hab => lt_of_le_of_ne hle hab) hs hne

theorem sortAttrs_eq_of_perm {l₁ l₂ : List (String × PyValue)}
    (hp : l₁.Perm l₂) (hn : (l₁.map Prod.fst).Nodup) :
    sortAttrs l₁ = sortAttrs l₂ := by
  haveI : IsAntisymm (String × PyValue) (fun a b => a.1 < b.1) :=
    ⟨fun a b h₁ h₂ => absurd h₂ (lt_asymm h₁)⟩
  haveI ht : IsTotal (String × PyValue) (fun a b => a.1 ≤ b.1) :=
    ⟨fun a b => le_total a.1 b.1⟩
  haveI htr : IsTrans (String × PyValue) (fun a b => a.1 ≤ b.1) :=
    ⟨fun _ _ _ h₁ h₂ => le_trans h₁ h₂⟩
  have hn₂ : (l₂.map Prod.fst).Nodup := ((hp.map Prod.fst).nodup_iff).mp hn
  have hperm : (sortAttrs l₁).Perm (sortAttrs l₂) :=
    (List.perm_insertionSort _ l₁).trans (hp.trans (List.perm_insertionSort _ l₂).symm)
  have hs₁ : List.Sorted (fun a b : String × PyValue => a.1 < b.1) (sortAttrs l₁) := by
    apply sorted_strict_of_nodup_keys (List.sorted_insertionSort _ l₁)
    exact (((List.perm_insertionSort _ l₁).map Prod.fst).nodup_iff).mpr hn
  have hs₂ : List.Sorted (fun a b : String × PyValue => a.1 < b.1) (sortAttrs l₂) := by
    apply sorted_strict_of_nodup_keys (List.sorted_insertionSort _ l₂)
    exact (((List.perm_insertionSort _ l₂).map Prod.fst).nodup_iff).mpr hn₂
  exact List.eq_of_perm_of_sorted hperm hs₁ hs₂

theorem resource_key_eq_of_perm (s₁ s₂ : ReadableSpan)
    (hp : s₁.resourceAttributes.Perm s₂.resourceAttributes)
    (hn : (s₁.resourceAttributes.map Prod.fst).Nodup) :
    resource_key s₁ = resource_key s₂ := by
  unfold resource_key
  rw [sortAttrs_eq_of_perm hp hn]

theorem lookup_isSome_iff_mem_keys {β : Type} (m : List (String × β)) (k : String) :
    (m.lookup k).isSome = true ↔ k ∈ m.map Prod.fst := by
  induction m with
  | nil => simp [List.lookup]
  | cons hd tl ih =>
      obtain ⟨k', v'⟩ := hd
      by_cases h : k = k'
      · subst h
        simp [List.lookup]
      · simp [List.lookup, beq_false_of_ne h, h, ih]

theorem lookup_of_mem_nodup {β : Type} {m : List (String × β)} {k : String} {v : β}
    (hn : (m.map Prod.fst).Nodup) (hm : (k, v) ∈ m) : m.lookup k = some v := by
  induction m with
  | nil => cases hm
  | cons hd tl ih =>
      obtain ⟨k', v'⟩ := hd
      rcases List.mem_cons.mp hm with h | h
      · obtain ⟨rfl, rfl⟩ := Prod.mk.injEq .. ▸ h
        · simp [List.lookup]
      · have hk : k ≠ k' := by
          rintro rfl
          exact (List.nodup_cons.mp hn).1 (List.mem_map.mpr ⟨(k, v), h, rfl⟩)
        simp [List.lookup, beq_false_of_ne hk, ih (List.nodup_cons.mp hn).2 h]

theorem addToScopeMap_keys (m : List (String × List ReadableSpan)) (sk : String)
    (s : ReadableSpan) :
    (addToScopeMap m sk s).map Prod.fst
      = if sk ∈ m.map Prod.fst then m.map Prod.fst else m.map Prod.fst ++ [sk] := by
  induction m with
  | nil => simp [addToScopeMap]
  | cons hd tl ih =>
      obtain ⟨k, ss⟩ := hd
      by_cases h : k = sk
      · subst h
        simp [addToScopeMap]
      · have h' : ¬ sk = k := fun hh => h hh.symm
        simp only [addToScopeMap, if_neg h, List.map_cons, ih]
        by_cases hmem : sk ∈ tl.map Prod.fst <;> simp [hmem, h']

theorem addToScopeMap_lookup_self (m : List (String × List ReadableSpan)) (sk : String)
    (s : ReadableSpan) :
    (addToScopeMap m sk s).lookup sk = some (((m.lookup sk).getD []) ++ [s]) := by
  induction m with
  | nil => simp [addToScopeMap, List.lookup]
  | cons hd tl ih =>
      obtain ⟨k, ss⟩ := hd
      by_cases h : k = sk
      · subst h
        simp [addToScopeMap, List.lookup]
      · have h' : ¬ sk = k := fun hh => h hh.symm
        simp [addToScopeMap, List.lookup, h, beq_false_of_ne h', ih]

theorem addToScopeMap_lookup_other (m : List (String × List ReadableSpan)) (sk k : String)
    (s : ReadableSpan) (hk : k ≠ sk) :
    (addToScopeMap m sk s).lookup k = m.lookup k := by
  induction m with
  | nil => simp [addToScopeMap, List.lookup, beq_false_of_ne hk]
  | cons hd tl ih =>
      obtain ⟨k', ss⟩ := hd
      by_cases h : k' = sk
      · subst h
        simp [addToScopeMap, List.lookup, beq_false_of_ne hk]
      · by_cases h2 : k = k'
        · subst h2
          simp [addToScopeMap, List.lookup, h]
        · simp [addToScopeMap, List.lookup, h, beq_false_of_ne h2, ih]

theorem addToResourceMap_keys (m : List (String × List (String × List ReadableSpan)))
    (rk sk : String) (s : ReadableSpan) :
    (addToResourceMap m rk sk s).map Prod.fst
      = if rk ∈ m.map Prod.fst then m.map Prod.fst else m.map Prod.fst ++ [rk] := by
  induction m with
  | nil => simp [addToResourceMap]
  | cons hd tl ih =>
      obtain ⟨k, sm⟩ := hd
      by_cases h : k = rk
      · subst h
        simp [addToResourceMap]
      · have h' : ¬ rk = k := fun hh => h hh.symm
        simp only [addToResourceMap, if_neg h, List.map_cons, ih]
        by_cases hmem : rk ∈ tl.map Prod.fst <;> simp [hmem, h']

theorem addToResourceMap_lookup_self (m : List (String × List (String × List ReadableSpan)))
    (rk sk : String) (s : ReadableSpan) :
    (addToResourceMap m rk sk s).lookup rk
      = some (addToScopeMap ((m.lookup rk).getD []) sk s) := by
  induction m with
  | nil => simp [addToResourceMap, List.lookup, addToScopeMap]
  | cons hd tl ih =>
      obtain ⟨k, sm⟩ := hd
      by_cases h : k = rk
      · subst h
        simp [addToResourceMap, List.lookup]
      · have h' : ¬ rk = k := fun hh => h hh.symm
        simp [addToResourceMap, List.lookup, h, beq_false_of_ne h', ih]

theorem addToResourceMap_lookup_other (m : List (String × List (String × List ReadableSpan)))
    (rk sk k : String) (s : ReadableSpan) (hk : k ≠ rk) :
    (addToResourceMap m rk sk s).lookup k = m.lookup k := by
  induction m with
  | nil => simp [addToResourceMap, List.lookup, beq_false_of_ne hk]
  | cons hd tl ih =>
      obtain ⟨k', sm⟩ := hd
      by_cases h : k' = rk
      · subst h
        simp [addToResourceMap, List.lookup, beq_false_of_ne hk]
      · by_cases h2 : k = k'
        · subst h2
          simp [addToResourceMap, List.lookup, h]
        · simp [addToResourceMap, List.lookup, h, beq_false_of_ne h2, ih]

theorem filter_snoc {α : Type} (p : α → Bool) (l : List α) (s : α) :
    (l ++ [s]).filter p = l.filter p ++ if p s then [s] else [] := by
  rw [List.filter_append]
  congr 1
  by_cases h : p s <;> simp [List.filter, h]

theorem scopeMapInv_nil (pfx : List ReadableSpan) (rk : String)
    (h : rk ∉ pfx.map resource_key) : scopeMapInv pfx rk [] := by
  have hfil : pfx.filter (fun t => resource_key t == rk) = [] := by
    rw [List.filter_eq_nil_iff]
    intro t ht hbt
    exact h (List.mem_map.mpr ⟨t, ht, beq_iff_eq.mp hbt⟩)
  refine ⟨List.nodup_nil, ?_, ?_⟩
  · intro sk
    simp [List.lookup, hfil]
  · intro sk ss hss
    simp [List.lookup] at hss

theorem scopeMapInv_skip (pfx : List ReadableSpan) (rk : String)
    (sm : List (String × List ReadableSpan)) (s : ReadableSpan)
    (hinv : scopeMapInv pfx rk sm) (hne : (resource_key s == rk) = false) :
    scopeMapInv (pfx ++ [s]) rk sm := by
  obtain ⟨h1, h2, h3⟩ := hinv
  have hf1 : (pfx ++ [s]).filter (fun t => resource_key t == rk)
      = pfx.filter (fun t => resource_key t == rk) := by
    rw [filter_snoc, hne]
    simp
  have hf2 : ∀ sk, (pfx ++ [s]).filter (fun t => resource_key t == rk && scope_key t == sk)
      = pfx.filter (fun t => resource_key t == rk && scope_key t == sk) := by
    intro sk
    rw [filter_snoc, hne]
    simp
  refine ⟨h1, ?_, ?_⟩
  · intro sk
    rw [hf1]
    exact h2 sk
  · intro sk ss hss
    rw [hf2]
    exact h3 sk ss hss

theorem scopeMapInv_step (pfx : List ReadableSpan) (rk : String)
    (sm : List (String × List ReadableSpan)) (s : ReadableSpan)
    (hinv : scopeMapInv pfx rk sm) (hrk : (resource_key s == rk) = true) :
    scopeMapInv (pfx ++ [s]) rk (addToScopeMap sm (scope_key s) s) := by
  obtain ⟨h1, h2, h3⟩ := hinv
  have hf1 : (pfx ++ [s]).filter (fun t => resource_key t == rk)
      = pfx.filter (fun t => resource_key t == rk) ++ [s] := by
    rw [filter_snoc, hrk]
    simp
  refine ⟨?_, ?_, ?_⟩
  · rw [addToScopeMap_keys]
    by_cases hmem : scope_key s ∈ sm.map Prod.fst
    · simp [hmem, h1]
    · simp [hmem, h1, List.nodup_append]
  · intro sk
    by_cases hsk : sk = scope_key s
    · subst hsk
      rw [addToScopeMap_lookup_self]
      simp [hf1]
    · rw [addToScopeMap_lookup_other _ _ _ _ hsk, hf1]
      rw [h2 sk]
      simp [List.mem_append, hsk]
  · intro sk ss hss
    by_cases hsk : sk = scope_key s
    · subst hsk
      rw [addToScopeMap_lookup_self] at hss
      have hcomb : (pfx ++ [s]).filter
            (fun t => resource_key t == rk && scope_key t == scope_key s)
          = pfx.filter (fun t => resource_key t == rk && scope_key t == scope_key s) ++ [s] := by
        rw [filter_snoc]
        simp [hrk]
      rw [hcomb]
      cases hold : sm.lookup (scope_key s) with
      | some ss₀ =>
          rw [hold] at hss
          simp only [Option.getD_some] at hss
          obtain rfl : ss₀ ++ [s] = ss := Option.some.inj hss
          rw [h3 _ _ hold]
      | none =>
          rw [hold] at hss
          simp only [Option.getD_none, List.nil_append] at hss
          have hnomem : scope_key s
              ∉ (pfx.filter (fun t => resource_key t == rk)).map scope_key := by
            intro hmem
            have : (sm.lookup (scope_key s)).isSome = true := (h2 _).mpr hmem
            rw [hold] at this
            cases this
          have hempty : pfx.filter
              (fun t => resource_key t == rk && scope_key t == scope_key s) = [] := by
            rw [List.filter_eq_nil_iff]
            intro t ht hbt
            rw [Bool.and_eq_true] at hbt
            exact hnomem (List.mem_map.mpr
              ⟨t, List.mem_filter.mpr ⟨ht, hbt.1⟩, beq_iff_eq.mp hbt.2⟩)
          obtain rfl : [s] = ss := Option.some.inj hss
          rw [hempty, List.nil_append]
    · rw [addToScopeMap_lookup_other _ _ _ _ hsk] at hss
      have hcomb : (pfx ++ [s]).filter (fun t => resource_key t == rk && scope_key t == sk)
          = pfx.filter (fun t => resource_key t == rk && scope_key t == sk) := by
        rw [filter_snoc]
        have : (scope_key s == sk) = false := by
          rw [beq_eq_false_iff_ne]
          exact fun hh => hsk hh.symm
        simp [this]
      rw [hcomb]
      exact h3 sk ss hss

theorem resourceMapInv_step (pfx : List ReadableSpan)
    (m : List (String × List (String × List ReadableSpan))) (s : ReadableSpan)
    (hinv : resourceMapInv pfx m) :
    resourceMapInv (pfx ++ [s])
      (addToResourceMap m (resource_key s) (scope_key s) s) := by
  obtain ⟨h1, h2, h3⟩ := hinv
  have hmapsnoc : (pfx ++ [s]).map resource_key = pfx.map resource_key ++ [resource_key s] := by
    simp
  refine ⟨?_, ?_, ?_⟩
  · rw [addToResourceMap_keys]
    by_cases hmem : resource_key s ∈ m.map Prod.fst
    · simp [hmem, h1]
    · simp [hmem, h1, List.nodup_append]
  · intro rk
    by_cases hrk : rk = resource_key s
    · subst hrk
      rw [addToResourceMap_lookup_self]
      simp [hmapsnoc]
    · rw [addToResourceMap_lookup_other _ _ _ _ _ hrk, hmapsnoc]
      rw [h2 rk]
      simp [List.mem_append, hrk]
  · intro rk sm hsm
    by_cases hrk : rk = resource_key s
    · subst hrk
      rw [addToResourceMap_lookup_self] at hsm
      obtain rfl := Option.some.inj hsm
      have hbeq : (resource_key s == resource_key s) = true := beq_self_eq_true _
      cases hold : m.lookup (resource_key s) with
      | some sm₀ =>
          simp only [Option.getD_some]
          exact scopeMapInv_step pfx _ sm₀ s (h3 _ _ hold) hbeq
      | none =>
          simp only [Option.getD_none]
          have hnomem : resource_key s ∉ pfx.map resource_key := by
            intro hmem
            have : (m.lookup (resource_key s)).isSome = true := (h2 _).mpr hmem
            rw [hold] at this
            cases this
          exact scopeMapInv_step pfx _ [] s (scopeMapInv_nil pfx _ hnomem) hbeq
    · rw [addToResourceMap_lookup_other _ _ _ _ _ hrk] at hsm
      have hbne : (resource_key s == rk) = false := by
        rw [beq_eq_false_iff_ne]
        exact fun hh => hrk hh.symm
      exact scopeMapInv_skip pfx rk sm s (h3 rk sm hsm) hbne

theorem resourceMapInv_foldl (rest : List ReadableSpan) :
    ∀ (pfx : List ReadableSpan) (m : List (String × List (String × List ReadableSpan))),
      resourceMapInv pfx m →
      resourceMapInv (pfx ++ rest)
        (rest.foldl (fun acc t => addToResourceMap acc (resource_key t) (scope_key t) t) m) := by
  induction rest with
  | nil =>
      intro pfx m h
      simpa using h
  | cons t rest ih =>
      intro pfx m h
      have step := resourceMapInv_step pfx m t h
      have := ih (pfx ++ [t]) _ step
      simpa [List.append_assoc] using this

theorem resourceMapInv_nil : resourceMapInv [] [] := by
  refine ⟨List.nodup_nil, ?_, ?_⟩
  · intro rk
    simp [List.lookup]
  · intro rk sm hsm
    simp [List.lookup] at hsm

theorem buildResourceMap_inv (spans : List ReadableSpan) :
    resourceMapInv spans (buildResourceMap spans) := by
  have := resourceMapInv_foldl spans [] [] resourceMapInv_nil
  simpa [buildResourceMap] using this

theorem scopeMapSpanCount_add (m : List (String × List ReadableSpan)) (sk : String)
    (s : ReadableSpan) :
    scopeMapSpanCount (addToScopeMap m sk s) = scopeMapSpanCount m + 1 := by
  induction m with
  | nil => simp [addToScopeMap, scopeMapSpanCount]
  | cons hd tl ih =>
      obtain ⟨k, ss⟩ := hd
      by_cases h : k = sk
      · subst h
        simp [addToScopeMap, scopeMapSpanCount]
        omega
      · simp only [addToScopeMap, if_neg h, scopeMapSpanCount, List.map_cons, List.sum_cons]
        have := ih
        simp only [scopeMapSpanCount] at this
        omega

theorem resourceMapSpanCount_add (m : List (String × List (String × List ReadableSpan)))
    (rk sk : String) (s : ReadableSpan) :
    resourceMapSpanCount (addToResourceMap m rk sk s) = resourceMapSpanCount m + 1 := by
  induction m with
  | nil => simp [addToResourceMap, resourceMapSpanCount, scopeMapSpanCount, addToScopeMap]
  | cons hd tl ih =>
      obtain ⟨k, sm⟩ := hd
      by_cases h : k = rk
      · subst h
        have hsc := scopeMapSpanCount_add sm sk s
        simp only [scopeMapSpanCount] at hsc
        simp [addToResourceMap, resourceMapSpanCount, hsc]
        omega
      · have hic := ih
        simp only [resourceMapSpanCount] at hic
        simp [addToResourceMap, resourceMapSpanCount, h, hic]
        omega

theorem buildResourceMap_count (spans : List ReadableSpan) :
    resourceMapSpanCount (buildResourceMap spans) = spans.length := by
  suffices h : ∀ (rest : List ReadableSpan) (m : List (String × List (String × List ReadableSpan))),
      resourceMapSpanCount
        (rest.foldl (fun acc t => addToResourceMap acc (resource_key t) (scope_key t) t) m)
        = resourceMapSpanCount m + rest.length by
    have := h spans []
    simpa [buildResourceMap, resourceMapSpanCount] using this
  intro rest
  induction rest with
  | nil => intro m; simp
  | cons t rest ih =>
      intro m
      simp only [List.foldl_cons, ih, resourceMapSpanCount_add, List.length_cons]
      omega

theorem nodup_length_eq_dedup_length {keys l : List String}
    (hn : keys.Nodup) (hm : ∀ k, k ∈ keys ↔ k ∈ l) :
    keys.length = l.dedup.length := by
  have hperm : keys.Perm l.dedup :=
    (List.perm_ext_iff_of_nodup hn l.nodup_dedup).mpr
      (fun a => (hm a).trans (List.mem_dedup).symm)
  exact hperm.length_eq

theorem buildPayload_length (spans : List ReadableSpan) :
    (buildPayload spans).resourceSpans.length = (buildResourceMap spans).length := by
  simp [buildPayload]

theorem payloadSpanCount_eq (spans : List ReadableSpan) :
    payloadSpanCount (buildPayload spans)
      = resourceMapSpanCount (buildResourceMap spans) := by
  simp only [payloadSpanCount, buildPayload, resourceMapSpanCount, List.map_map]
  congr 1
  apply List.map_congr_left
  intro rentry _
  dsimp only [Function.comp]
  rw [List.map_map]
  exact congrArg List.sum (List.map_congr_left (fun sentry _ => by
    dsimp only [Function.comp]
    exact List.length_map _ _))

/-! ### Claim theorems -/

/-- C1: For every list of spans, UntraceExporter.export never raises (the
embedding is a total function over every possible HTTP outcome, including
raised exceptions) and returns SUCCESS exactly when either the span list
is empty (no HTTP interaction happens) or the HTTP response indicates
success (2xx); every other outcome (non 2xx status, or any raised
network/transport/serialization error) yields FAILURE, only logged. -/
theorem export_never_raises_and_result :
    ∀ (spans : List ReadableSpan) (o : HttpOutcome),
      (export_batch spans o = .success ∨ export_batch spans o = .failure) ∧
      (export_batch spans o = .success ↔
        spans = [] ∨ ∃ st, o = .response st ∧ http_is_success st = true) := by
  intro spans o
  constructor
  · cases h : export_batch spans o
    · exact Or.inl rfl
    · exact Or.inr rfl
  · cases spans with
    | nil => simp [export_batch]
    | cons s rest =>
        cases o with
        | response st =>
            by_cases h : http_is_success st = true <;>
              simp [export_batch, export_spans_result, h]
        | raisedError e => simp [export_batch, export_spans_result]

/-- C2: The claim says that on an exception the wrapper records the
exception, sets status ERROR with str(e), records an error metric tagged
with operation and provider, and re-raises unchanged.  Evaluating the
sync span engine at the failing input of the spec scenario, a wrapped
call raising TimeoutError("slow"): the exception is recorded, the status
is set to ERROR "slow", the same exception is re-raised — but the list of
recorded metric operations is empty.  The _handle_error_metrics helper
that would produce exactly the claimed metric exists in the source yet is
never invoked, so no error metric is recorded, contradicting the claim
and the intent evidenced by the dead helper. -/
theorem wrapped_error_records_no_metric :
    (create_llm_span_sync timeoutTraced).outcome = CallOutcome.exn ⟨"TimeoutError", "slow"⟩ ∧
    (create_llm_span_sync timeoutTraced).spanOps
      = [SpanOp.addEvent "llm.request.start",
         SpanOp.recordException ⟨"TimeoutError", "slow"⟩,
         SpanOp.setStatus UStatusCode.error (some "slow"), SpanOp.endSpan] ∧
    (create_llm_span_sync timeoutTraced).metricOps = [] ∧
    handle_error_metrics ⟨"TimeoutError", "slow"⟩ "chat" "openai"
      = MetricOp.errorMetric "TimeoutError" "slow"
          [("operation", "chat"), ("provider", "openai")] :=
  ⟨rfl, rfl, rfl, rfl⟩

/-- C3: For every intercepted call whose traced body does not itself end
the span (which no wrapper in the SDK does), the span is ended exactly
once, on both the success and the exception branch, by both the
synchronous engine (the try/except/finally of _create_llm_span_sync) and
the asynchronous engine (the try/except/finally of with_span). -/
theorem span_closed_exactly_once :
    ∀ (α : Type) (traced : TracedCall α),
      traced.spanOps.countP SpanOp.isEnd = 0 →
      ((create_llm_span_sync traced).spanOps.countP SpanOp.isEnd = 1 ∧
       (with_span traced).spanOps.countP SpanOp.isEnd = 1) := by
  intro α traced h
  cases ht : traced.outcome <;>
    simp [create_llm_span_sync, with_span, ht, List.countP_append, List.countP_cons, h,
      SpanOp.isEnd]

/-- C3 witness: the raising scenario instantiated concretely on both
engines. -/
theorem span_closed_exactly_once_witness :
    timeoutTraced.spanOps.countP SpanOp.isEnd = 0 ∧
    (create_llm_span_sync timeoutTraced).spanOps.countP SpanOp.isEnd = 1 ∧
    (with_span timeoutTraced).spanOps.countP SpanOp.isEnd = 1 :=
  ⟨rfl,
   (span_closed_exactly_once Unit timeoutTraced rfl).1,
   (span_closed_exactly_once Unit timeoutTraced rfl).2⟩

/-- C4: The payload groups spans first by the resource fingerprint (which
is insensitive to the insertion order of the resource attribute map),
then by the scope key: there is exactly one resourceSpans entry per
distinct fingerprint, exactly one scopeSpans entry per distinct scope key
within it, every group is exactly the in-order sublist of input spans
with those keys (so the original relative order is preserved and no span
is lost), and the group sizes sum to the input length.  The last conjunct
ties the payload span lists to the proven grouping structure. -/
theorem payload_grouping_spec :
    (∀ s₁ s₂ : ReadableSpan,
      s₁.resourceAttributes.Perm s₂.resourceAttributes →
      (s₁.resourceAttributes.map Prod.fst).Nodup →
      resource_key s₁ = resource_key s₂) ∧
    (∀ spans : List ReadableSpan,
      (buildPayload spans).resourceSpans.length = (spans.map resource_key).dedup.length) ∧
    (∀ (spans : List ReadableSpan) (rk : String) (sm : List (String × List ReadableSpan)),
      (rk, sm) ∈ buildResourceMap spans →
      ((sm.map Prod.fst).Nodup ∧
       sm.length = ((spans.filter (fun t => resource_key t == rk)).map scope_key).dedup.length ∧
       ∀ sk ss, (sk, ss) ∈ sm →
         ss = spans.filter (fun t => resource_key t == rk && scope_key t == sk))) ∧
    (∀ spans : List ReadableSpan, payloadSpanCount (buildPayload spans) = spans.length) ∧
    (∀ spans : List ReadableSpan,
      (buildPayload spans).resourceSpans.map (fun r => r.scopeSpans.map (fun g => g.spans))
        = (buildResourceMap spans).map
            (fun r => r.2.map (fun g => g.2.map convert_span))) := by
  refine ⟨resource_key_eq_of_perm, ?_, ?_, ?_, ?_⟩
  · intro spans
    obtain ⟨hnd, hksome, _⟩ := buildResourceMap_inv spans
    rw [buildPayload_length, ← List.length_map (buildResourceMap spans) Prod.fst]
    refine nodup_length_eq_dedup_length hnd ?_
    intro k
    rw [← lookup_isSome_iff_mem_keys]
    exact hksome k
  · intro spans rk sm hmem
    obtain ⟨hnd, _, hbucket⟩ := buildResourceMap_inv spans
    have hlook := lookup_of_mem_nodup hnd hmem
    obtain ⟨hsnd, hssome, hsbucket⟩ := hbucket rk sm hlook
    refine ⟨hsnd, ?_, ?_⟩
    · rw [← List.length_map sm Prod.fst]
      refine nodup_length_eq_dedup_length hsnd ?_
      intro sk
      rw [← lookup_isSome_iff_mem_keys]
      exact hssome sk
    · intro sk ss hss
      exact hsbucket sk ss (lookup_of_mem_nodup hsnd hss)
  · intro spans
    rw [payloadSpanCount_eq, buildResourceMap_count]
  · intro spans
    simp only [buildPayload, List.map_map]
    apply List.map_congr_left
    intro rentry _
    dsimp only [Function.comp]
    rw [List.map_map]
    apply List.map_congr_left
    intro sentry _
    rfl

/-- C4 witness: the fingerprint agrees on a permuted two-entry resource
map, and the spec scenario of 3 spans across 2 distinct resources yields
exactly 2 resourceSpans entries whose span counts sum to 3. -/
theorem payload_grouping_spec_witness :
    resource_key (sampleSpan [("a", PyValue.int 1), ("b", PyValue.int 2)] "scope")
      = resource_key (sampleSpan [("b", PyValue.int 2), ("a", PyValue.int 1)] "scope") ∧
    (buildPayload [sampleSpan [("service.name", PyValue.str "A")] "s",
        sampleSpan [("service.name", PyValue.str "A")] "s",
        sampleSpan [("service.name", PyValue.str "B")] "s"]).resourceSpans.length = 2 ∧
    payloadSpanCount (buildPayload [sampleSpan [("service.name", PyValue.str "A")] "s",
        sampleSpan [("service.name", PyValue.str "A")] "s",
        sampleSpan [("service.name", PyValue.str "B")] "s"]) = 3 ∧
    (([(scope_key (sampleSpan [("service.name", PyValue.str "A")] "s"),
        [sampleSpan [("service.name", PyValue.str "A")] "s"])] :
      List (String × List ReadableSpan)).map Prod.fst).Nodup :=
  ⟨payload_grouping_spec.1 _ _
      (List.Perm.swap ("b", PyValue.int 2) ("a", PyValue.int 1) []) (by decide),
   (payload_grouping_spec.2.1 _).trans (by rfl),
   (payload_grouping_spec.2.2.2.1 _).trans (by rfl),
   (payload_grouping_spec.2.2.1 [sampleSpan [("service.name", PyValue.str "A")] "s"]
      (resource_key (sampleSpan [("service.name", PyValue.str "A")] "s"))
      [(scope_key (sampleSpan [("service.name", PyValue.str "A")] "s"),
        [sampleSpan [("service.name", PyValue.str "A")] "s"])]
      (List.mem_singleton_self _)).1⟩

/-- C5: The claim says uninstrument restores the exact original callable
for every recorded (object identity, method name) pair, leaving zero
residual side effects.  Evaluating the concrete run instrument, construct
a client, uninstrument: the adapter ends uninstrumented and the original
of the patched instance method is recorded in _original_methods under the
key 1.chat.completions.create, yet the instance still carries the wrapper
rather than the recorded original, because uninstrument only restores the
class constructors and never reads _original_methods back.  This
contradicts the claim and the evident purpose of the _original_methods
record kept by _patch_method. -/
theorem uninstrument_leaves_instance_wrapper :
    uninstrumentScenario.2.instrumented = false ∧
    uninstrumentScenario.2.originalMethods.lookup "1.chat.completions.create"
      = some (Callable.original "completions.create") ∧
    uninstrumentScenario.1.instances.lookup 1
      = some [("chat.completions.create",
          Callable.wrapper (Callable.original "completions.create"))] ∧
    Callable.wrapper (Callable.original "completions.create")
      ≠ Callable.original "completions.create" :=
  ⟨rfl, rfl, rfl, fun h => Callable.noConfusion h⟩

/-- C6: instrument and uninstrument are idempotent as state
transformations; starting from an uninstrumented adapter with the
provider library importable and a duplicate-free constructor table,
instrumenting twice leaves the adapter INSTRUMENTED with exactly one
original-callable record per constructor target (the recorded table is
the original table, with distinct keys), and uninstrumenting twice
afterwards leaves it UNINSTRUMENTED with the original constructors
restored and the instances exactly as before (no wrapper dangling in this
instrument/uninstrument-only sequence). -/
theorem instrument_uninstrument_idempotent :
    (∀ (w : AdapterWorld) (st : AdapterState),
      adapter_instrument (adapter_instrument w st).1 (adapter_instrument w st).2
        = adapter_instrument w st) ∧
    (∀ (w : AdapterWorld) (st : AdapterState),
      adapter_uninstrument (adapter_uninstrument w st).1 (adapter_uninstrument w st).2
        = adapter_uninstrument w st) ∧
    (∀ (w : AdapterWorld) (st : AdapterState),
      st.instrumented = false → w.libAvailable = true →
      (w.constructors.map Prod.fst).Nodup →
      ((adapter_instrument (adapter_instrument w st).1 (adapter_instrument w st).2).2.instrumented
          = true ∧
       (adapter_instrument (adapter_instrument w st).1
          (adapter_instrument w st).2).2.originalConstructors = w.constructors ∧
       (((adapter_instrument (adapter_instrument w st).1
          (adapter_instrument w st).2).2.originalConstructors.map Prod.fst).Nodup))) ∧
    (∀ (w : AdapterWorld) (st : AdapterState),
      st.instrumented = false → w.libAvailable = true →
      ((adapter_uninstrument
          (adapter_uninstrument (adapter_instrument w st).1 (adapter_instrument w st).2).1
          (adapter_uninstrument (adapter_instrument w st).1
            (adapter_instrument w st).2).2).2.instrumented = false ∧
       (adapter_uninstrument
          (adapter_uninstrument (adapter_instrument w st).1 (adapter_instrument w st).2).1
          (adapter_uninstrument (adapter_instrument w st).1
            (adapter_instrument w st).2).2).1.constructors = w.constructors ∧
       (adapter_uninstrument
          (adapter_uninstrument (adapter_instrument w st).1 (adapter_instrument w st).2).1
          (adapter_uninstrument (adapter_instrument w st).1
            (adapter_instrument w st).2).2).1.instances = w.instances)) := by
  refine ⟨?_, ?_, ?_, ?_⟩
  · intro w st
    by_cases h1 : st.instrumented <;> by_cases h2 : w.libAvailable <;>
      simp [adapter_instrument, h1, h2]
  · intro w st
    by_cases h1 : st.instrumented <;>
      simp [adapter_uninstrument, h1]
  · intro w st h1 h2 h3
    simp [adapter_instrument, h1, h2, h3]
  · intro w st h1 h2
    simp [adapter_instrument, adapter_uninstrument, h1, h2]

/-- C6 witness: the double instrument and double uninstrument sequence on
the concrete OpenAI adapter world, with hypotheses discharged
concretely. -/
theorem instrument_uninstrument_idempotent_witness :
    ((adapter_instrument
        (adapter_instrument openaiWorld freshAdapter).1
        (adapter_instrument openaiWorld freshAdapter).2).2.instrumented = true) ∧
    ((adapter_uninstrument
        (adapter_uninstrument (adapter_instrument openaiWorld freshAdapter).1
          (adapter_instrument openaiWorld freshAdapter).2).1
        (adapter_uninstrument (adapter_instrument openaiWorld freshAdapter).1
          (adapter_instrument openaiWorld freshAdapter).2).2).1.constructors
      = openaiWorld.constructors) :=
  ⟨(instrument_uninstrument_idempotent.2.2.1 openaiWorld freshAdapter
      rfl rfl (by decide)).1,
   (instrument_uninstrument_idempotent.2.2.2 openaiWorld freshAdapter rfl rfl).2.1⟩

/-- C7 counterexample: a None element inside an array attribute value is
not omitted.  If the claim held, the attribute value of key a would
convert to an empty arrayValue; instead the None element is serialized by
the string fallback as the string "None" and sent. -/
theorem array_null_not_dropped :
    convert_attributes [("a", PyValue.list [PyValue.none])]
      = [("a", OtlpValue.arrayValue [OtlpValue.stringValue "None"])] ∧
    convert_attributes [("a", PyValue.list [PyValue.none])]
      ≠ [("a", OtlpValue.arrayValue [])] := by
  refine ⟨rfl, ?_⟩
  intro h
  rw [show convert_attributes [("a", PyValue.list [PyValue.none])]
      = [("a", OtlpValue.arrayValue [OtlpValue.stringValue "None"])] from rfl] at h
  simp at h

/-- C7 as amended: entries whose value is None are dropped at the top
level of an attribute map and, recursively, inside kvlist (map) values;
but a None element inside an array value is not omitted — it is converted
by the string fallback to the string "None". -/
theorem null_dropping_amended :
    (∀ (pre post : List (String × PyValue)) (k : String),
      convert_attributes (pre ++ (k, PyValue.none) :: post)
        = convert_attributes (pre ++ post)) ∧
    (∀ (pre post : List (String × PyValue)) (k : String),
      convert_value (PyValue.dict (pre ++ (k, PyValue.none) :: post))
        = convert_value (PyValue.dict (pre ++ post))) ∧
    (∀ pre post : List PyValue,
      convert_value (PyValue.list (pre ++ PyValue.none :: post))
        = OtlpValue.arrayValue
            (convert_value_list pre ++ OtlpValue.stringValue "None" :: convert_value_list post)) := by
  refine ⟨convert_attributes_drop_none, ?_, ?_⟩
  · intro pre post k
    simp only [convert_value]
    rw [convert_value_kvs_drop_none]
  · intro pre post
    simp only [convert_value]
    rw [convert_value_list_append]
    rfl

/-- C8: sanitize removes every entry whose value is None (inserting a
None entry anywhere changes nothing), leaves scalar values untouched,
coerces composite values (lists and dicts) to their str() form, and the
remaining keys are exactly the keys of the non-None entries in their
original insertion order (in particular a subsequence of the original key
sequence, so no reordering happens). -/
theorem sanitize_attributes_spec :
    (∀ (pre post : List (String × PyValue)) (k : String),
      sanitize_attributes (pre ++ (k, PyValue.none) :: post)
        = sanitize_attributes (pre ++ post)) ∧
    (∀ s, sanitize_value (PyValue.str s) = PyValue.str s) ∧
    (∀ n, sanitize_value (PyValue.int n) = PyValue.int n) ∧
    (∀ q, sanitize_value (PyValue.float q) = PyValue.float q) ∧
    (∀ b, sanitize_value (PyValue.bool b) = PyValue.bool b) ∧
    (∀ xs, sanitize_value (PyValue.list xs) = PyValue.str (pyStr (PyValue.list xs))) ∧
    (∀ kvs, sanitize_value (PyValue.dict kvs) = PyValue.str (pyStr (PyValue.dict kvs))) ∧
    (∀ attrs, (sanitize_attributes attrs).map Prod.fst
        = (attrs.filter (fun kv => !kv.2.isNone)).map Prod.fst) ∧
    (∀ attrs, ((sanitize_attributes attrs).map Prod.fst).Sublist (attrs.map Prod.fst)) := by
  refine ⟨?_, fun _ => rfl, fun _ => rfl, fun _ => rfl, fun _ => rfl, fun _ => rfl,
    fun _ => rfl, ?_, ?_⟩
  · intro pre post k
    induction pre with
    | nil => simp [sanitize_attributes, PyValue.isNone]
    | cons hd tl ih =>
        obtain ⟨k', v'⟩ := hd
        simp only [List.cons_append, sanitize_attributes, List.append_eq]
        rw [ih]
  · intro attrs
    induction attrs with
    | nil => rfl
    | cons hd tl ih =>
        obtain ⟨k, v⟩ := hd
        simp only [sanitize_attributes, List.filter_cons]
        cases hv : v.isNone <;> simp [hv, ih]
  · intro attrs
    induction attrs with
    | nil => simp [sanitize_attributes]
    | cons hd tl ih =>
        obtain ⟨k, v⟩ := hd
        simp only [sanitize_attributes]
        cases hv : v.isNone
        · simp only [hv, Bool.false_eq_true, if_false, List.map_cons]
          exact List.Sublist.cons₂ k ih
        · simp only [hv, if_true, List.map_cons]
          exact ih.cons k

/-- C9: The claim (and the docstring of init) says a second init after a
successful first init raises a hard configuration error.  Evaluating the
embedded init twice from the fresh global state: the first call returns
instance 1, and the second call returns the same existing instance 1
instead of raising — the RuntimeError branch is unreachable once an
instance is stored, so the caller observes no hard error. -/
theorem double_init_returns_existing_instance :
    (sdk_init { isInitialized := false, inst := none } 1).1 = InitOutcome.returned 1 ∧
    (sdk_init (sdk_init { isInitialized := false, inst := none } 1).2 2).1
      = InitOutcome.returned 1 ∧
    ∀ msg, (sdk_init (sdk_init { isInitialized := false, inst := none } 1).2 2).1
      ≠ InitOutcome.raisedRuntimeError msg := by
  refine ⟨rfl, rfl, ?_⟩
  intro msg h
  rw [show (sdk_init (sdk_init { isInitialized := false, inst := none } 1).2 2).1
      = InitOutcome.returned 1 from rfl] at h
  simp at h

/-- C10: A boolean attribute value always converts to a boolValue and
never to an intValue, even though isinstance(v, int) is true on booleans
in the host language — the bool branch of _convert_value comes before the
int branch. -/
theorem bool_value_conversion :
    ∀ b : Bool, isinstance_int (PyValue.bool b) = true ∧
      convert_value (PyValue.bool b) = OtlpValue.boolValue b ∧
      ∀ n : Int, convert_value (PyValue.bool b) ≠ OtlpValue.intValue n := by
  intro b
  refine ⟨rfl, rfl, ?_⟩
  intro n h
  rw [show convert_value (PyValue.bool b) = OtlpValue.boolValue b from rfl] at h
  simp at h

end Untrace
